import Mathlib

/-!
Verification of the Excel row-to-record construction and query logic of
`src/js/excel-parser.js` (class `ExcelParser`).

The JavaScript code works over raw spreadsheet cell values (strings, numbers,
`null`/`undefined`).  We embed those values as `JSVal`; `null` and `undefined`
are conflated into a single constructor, which is sound for this code because
every place the source distinguishes values (`getCellValue`'s normalization,
the `||` default operator, `===` comparisons against numbers and strings,
optional chaining `?.`) treats `null` and `undefined` alike on the paths that
occur here.  JavaScript numbers that arise in this module are integers or
`NaN` (cell contents, `parseInt` results, `Math.ceil` of an integer division),
so numbers are embedded as `Int` plus an explicit `nan` constructor.
-/

namespace ExcelParserModel

/-- A raw JavaScript cell value: `null`/`undefined`, a string, an integer
number, or the number `NaN`. -/
inductive JSVal where
  | null : JSVal
  | str : String → JSVal
  | num : Int → JSVal
  | nan : JSVal
deriving DecidableEq, Repr, Inhabited

/-- JavaScript falsiness for the values of our model: `null`/`undefined`,
the empty string, the number `0` and `NaN` are falsy. -/
def JSVal.falsy : JSVal → Bool
  | .null => true
  | .str s => s = ""
  | .num n => n = 0
  | .nan => true

/-- The JavaScript `a || b` operator: `b` if `a` is falsy, else `a`. -/
def jsOr (a b : JSVal) : JSVal :=
  if a.falsy then b else a

/-- JavaScript strict equality `===` on our values.  `NaN === NaN` is false,
matched by the catch-all case. -/
def jsStrictEq : JSVal → JSVal → Bool
  | .null, .null => true
  | .str a, .str b => a = b
  | .num a, .num b => a = b
  | _, _ => false

/-- A spreadsheet row: the ordered cell values.  Reading past the end of a
row (`row[colIndex]` in JavaScript gives `undefined`) yields `JSVal.null`. -/
abbrev Row := List JSVal

/-- `getCellValue(row, colIndex)`: `null`, `undefined` and the empty string
normalize to `null`; the literal `"B"` and every other value are returned
unchanged (the source's explicit `value === 'B'` branch also returns the
value itself, so it is behaviorally the final `return value`). -/
def getCellValue (row : Row) (colIndex : Nat) : JSVal :=
  let value := row.getD colIndex .null
  match value with
  | .null => .null
  | .str s => if s = "" then .null else .str s
  | v => v

/-- Value of a character as a base-16 digit, if it is one. -/
def hexDigitVal (c : Char) : Option Nat :=
  if '0' ≤ c ∧ c ≤ '9' then some (c.toNat - '0'.toNat)
  else if 'a' ≤ c ∧ c ≤ 'f' then some (c.toNat - 'a'.toNat + 10)
  else if 'A' ≤ c ∧ c ≤ 'F' then some (c.toNat - 'A'.toNat + 10)
  else none

/-- Accumulate the longest prefix of digits below `radix` into a number. -/
def digitsAcc (radix : Nat) (acc : Nat) : List Char → Nat
  | [] => acc
  | c :: cs =>
    match hexDigitVal c with
    | some d => if d < radix then digitsAcc radix (acc * radix + d) cs else acc
    | none => acc

/-- Parse the longest digit prefix in the given radix; `none` when the first
character is not a digit of that radix. -/
def leadingDigits (radix : Nat) (cs : List Char) : Option Nat :=
  match cs with
  | [] => none
  | c :: _ =>
    match hexDigitVal c with
    | some d => if d < radix then some (digitsAcc radix 0 cs) else none
    | none => none

/-- JavaScript `parseInt(string)` with no radix argument: skip leading
whitespace, read an optional sign, switch to base 16 after a `0x`/`0X`
prefix, then parse the longest digit prefix; `NaN` when no digit follows.
(The JavaScript engine loses precision beyond 2^53; the integers in this
module are far below that, so exact `Int` arithmetic is faithful.) -/
def parseIntJS (s : String) : JSVal :=
  let cs := s.toList.dropWhile Char.isWhitespace
  let signAndRest : Int × List Char :=
    match cs with
    | '-' :: rest => (-1, rest)
    | '+' :: rest => (1, rest)
    | _ => (1, cs)
  let radixAndRest : Nat × List Char :=
    match signAndRest.2 with
    | '0' :: 'x' :: rest => (16, rest)
    | '0' :: 'X' :: rest => (16, rest)
    | _ => (10, signAndRest.2)
  match leadingDigits radixAndRest.1 radixAndRest.2 with
  | none => .nan
  | some n => .num (signAndRest.1 * n)

/-- `String.prototype.replace('G', '')` with a string pattern replaces only
the first occurrence: drop the first `'G'` character, if any. -/
def removeFirstG : List Char → List Char
  | [] => []
  | c :: cs => if c = 'G' then cs else c :: removeFirstG cs

/-- `parseInt(mcn_no?.replace('G', '') || '0')` from `parseGateRow`.
`none` models the `TypeError` thrown when `mcn_no` is a number (numbers have
no `replace` method); optional chaining turns `null`/`undefined` into
`undefined`, which `|| '0'` replaces by `'0'`. -/
def gateNumberOf (mcn_no : JSVal) : Option JSVal :=
  match mcn_no with
  | .null => some (parseIntJS "0")
  | .str s =>
    let t := String.mk (removeFirstG s.toList)
    some (parseIntJS (if t = "" then "0" else t))
  | _ => none

/-- `Math.ceil(x / 20)` for a gate number, which is an integer or `NaN`.
For an integer `n`, `⌈n / 20⌉ = ⌊(n + 19) / 20⌋` (floor division, `Int.fdiv`);
`NaN / 20` is `NaN` and `Math.ceil(NaN)` is `NaN`. -/
def jsCeilDiv20 : JSVal → JSVal
  | .num n => .num (Int.fdiv (n + 19) 20)
  | _ => .nan

/-- The `rev_flag` extraction: `this.getCellValue(row, 2) || 0`. -/
def revFlagOf (row : Row) : JSVal :=
  jsOr (getCellValue row 2) (.num 0)

/-- The joint-status extraction loop: offsets 17–36, each cell defaulted to
`'B'` when falsy (`this.getCellValue(row, i) || 'B'`). -/
def jointRaw (row : Row) : List JSVal :=
  (List.range' 17 20).map fun i => jsOr (getCellValue row i) (.str "B")

/-- The skirt-status extraction loop: offsets 38–57, each cell defaulted to
`'B'` when falsy. -/
def skirtRaw (row : Row) : List JSVal :=
  (List.range' 38 20).map fun i => jsOr (getCellValue row i) (.str "B")

/-- A parsed Gate record, with the fields assembled by `parseGateRow`. -/
structure Gate where
  mcn_no : JSVal
  serial_no2 : JSVal
  rev_flag : JSVal
  wo_dtl_id : JSVal
  fo_desc : JSVal
  sts : JSVal
  working_rate : JSVal
  start_dt : JSVal
  end_dt : JSVal
  plan_start_dt : JSVal
  plan_end_dt : JSVal
  work_st : JSVal
  worker_id : JSVal
  worker_nm : JSVal
  skirt_qty : JSVal
  proj_color : JSVal
  cur_time : JSVal
  plant : JSVal
  mod : JSVal
  gateNumber : JSVal
  jointStatuses : List JSVal
  skirtStatuses : List JSVal
  rowIndex : Nat
  isReverse : Bool
deriving DecidableEq, Repr, Inhabited

/-- `parseGateRow(row, index)`.  `none` models a thrown exception (the only
throwing step is `mcn_no?.replace` when `mcn_no` is a number). -/
def parseGateRow (row : Row) (index : Nat) : Option Gate :=
  let mcn_no := getCellValue row 0
  let rev_flag := revFlagOf row
  match gateNumberOf mcn_no with
  | none => none
  | some gateNumber =>
    let mod := jsCeilDiv20 gateNumber
    let joints0 := jointRaw row
    let jointStatuses :=
      if jsStrictEq rev_flag (.num 1) then
        JSVal.null :: (joints0.drop 1).reverse
      else joints0
    some
      { mcn_no := mcn_no
        serial_no2 := getCellValue row 1
        rev_flag := rev_flag
        wo_dtl_id := getCellValue row 3
        fo_desc := getCellValue row 4
        sts := getCellValue row 5
        working_rate := getCellValue row 6
        start_dt := getCellValue row 7
        end_dt := getCellValue row 8
        plan_start_dt := getCellValue row 9
        plan_end_dt := getCellValue row 10
        work_st := getCellValue row 11
        worker_id := getCellValue row 12
        worker_nm := getCellValue row 13
        skirt_qty := jsOr (getCellValue row 14) (.num 0)
        proj_color := getCellValue row 15
        cur_time := getCellValue row 16
        plant := getCellValue row 37
        mod := mod
        gateNumber := gateNumber
        jointStatuses := jointStatuses
        skirtStatuses := skirtRaw row
        rowIndex := index
        isReverse := jsStrictEq rev_flag (.num 1) }

/-- `parseGates` body over the data rows (the table minus its header):
`dataRows.map((row, index) => try parseGateRow(row, index) catch → null)`
followed by `.filter(gate => gate !== null)`, with the map index threaded
explicitly through the recursion. -/
def parseGatesAux (index : Nat) : List Row → List Gate
  | [] => []
  | row :: rest =>
    match parseGateRow row index with
    | some g => g :: parseGatesAux (index + 1) rest
    | none => parseGatesAux (index + 1) rest

/-- `parseGates()`: drop the header row, parse each data row, drop the rows
whose parse threw. -/
def parseGates (table : List Row) : List Gate :=
  parseGatesAux 0 (table.drop 1)

/-- The error taxonomy of the build/query surface. -/
inductive BuildError where
  | dataEmpty
deriving DecidableEq, Repr

/-- `validateData()`: throws (`DataEmpty`) iff the raw table has no rows at
all; a wrong data-row count only logs a warning and never fails. -/
def validateData (table : List Row) : Except BuildError Unit :=
  if table.length = 0 then .error .dataEmpty else .ok ()

/-- The parser's mutable state: the parsed gates and the loaded flag. -/
structure ParserState where
  gates : List Gate
  isLoaded : Bool
deriving DecidableEq, Repr

/-- The freshly constructed parser: `gates = []`, `isLoaded = false`. -/
def initState : ParserState :=
  { gates := [], isLoaded := false }

/-- `loadExcel` after the external decode step: validate, parse the gates,
set `isLoaded`.  On a validation throw the state is unchanged and the error
propagates to the caller. -/
def loadExcel (table : List Row) : Except BuildError ParserState :=
  match validateData table with
  | .error e => .error e
  | .ok () => .ok { gates := parseGates table, isLoaded := true }

/-- `filterByMod(mod)`: the full gate list when `mod` is falsy (absent, `0`,
`NaN`), else the gates whose `mod` is strictly equal to it. -/
def filterByMod (gates : List Gate) (mod : JSVal) : List Gate :=
  if mod.falsy then gates else gates.filter fun g => jsStrictEq g.mod mod

/-- JavaScript string coercion of a value used as an object property key. -/
def jsToString : JSVal → String
  | .null => "null"
  | .str s => s
  | .num n => toString n
  | .nan => "NaN"

/-- The `statusCount` key for a gate: `gate.sts || 'Unknown'`, coerced to a
property-key string. -/
def statusKeyOf (g : Gate) : String :=
  jsToString (jsOr g.sts (.str "Unknown"))

/-- The `statusCount` object built by `getSummary`'s `forEach`:
`statusCount[status] = (statusCount[status] || 0) + 1` per gate, modelled as
a total map from key to count (an absent key reads as 0). -/
def statusCountOf (gates : List Gate) : String → Nat :=
  gates.foldl (fun m g k => if k = statusKeyOf g then m k + 1 else m k)
    (fun _ => 0)

/-- The keys that actually occur in `statusCount` for a gate list. -/
def summaryKeys (gates : List Gate) : List String :=
  (gates.map statusKeyOf).dedup

/-- The object returned by a successful `getSummary()`. -/
structure Summary where
  totalGates : Nat
  mod1 : Nat
  mod2 : Nat
  mod3 : Nat
  statusCount : String → Nat
  reverseCount : Nat

/-- The query-time error: summary requested before a successful load. -/
inductive SummaryError where
  | notLoaded
deriving DecidableEq, Repr

/-- `getSummary()`: the `{ error: ... }` object returned when
`this.isLoaded` is false is the `NotLoaded` failure; otherwise the counts
over the current gates. -/
def getSummary (st : ParserState) : Except SummaryError Summary :=
  if st.isLoaded then
    .ok
      { totalGates := st.gates.length
        mod1 := (filterByMod st.gates (.num 1)).length
        mod2 := (filterByMod st.gates (.num 2)).length
        mod3 := (filterByMod st.gates (.num 3)).length
        statusCount := statusCountOf st.gates
        reverseCount := (st.gates.filter fun g => g.isReverse).length }
  else .error .notLoaded

/-! ### Helper lemmas -/

lemma jointRaw_length (row : Row) : (jointRaw row).length = 20 := by
  simp [jointRaw]

lemma skirtRaw_length (row : Row) : (skirtRaw row).length = 20 := by
  simp [skirtRaw]

lemma jsStrictEq_num_one (v : JSVal) :
    jsStrictEq v (JSVal.num 1) = true ↔ v = JSVal.num 1 := by
  cases v <;> simp [jsStrictEq]

lemma jsOr_B_ne (v : JSVal) :
    jsOr v (JSVal.str "B") ≠ JSVal.null ∧ jsOr v (JSVal.str "B") ≠ JSVal.num 0 := by
  by_cases h : v.falsy = true
  · simp [jsOr, h]
  · cases v with
    | null => simp [JSVal.falsy] at h
    | str s => simp [jsOr, h]
    | num n =>
      simp [JSVal.falsy] at h
      simp [jsOr, JSVal.falsy, h]
    | nan => simp [JSVal.falsy] at h

lemma mem_jointRaw_ne {row : Row} {x : JSVal} (hx : x ∈ jointRaw row) :
    x ≠ JSVal.null ∧ x ≠ JSVal.num 0 := by
  obtain ⟨i, _, rfl⟩ := List.mem_map.mp hx
  exact jsOr_B_ne _

lemma mem_skirtRaw_ne {row : Row} {x : JSVal} (hx : x ∈ skirtRaw row) :
    x ≠ JSVal.null ∧ x ≠ JSVal.num 0 := by
  obtain ⟨i, _, rfl⟩ := List.mem_map.mp hx
  exact jsOr_B_ne _

/-- Field-level description of a successful `parseGateRow`. -/
lemma parseGateRow_fields {row : Row} {index : Nat} {g : Gate}
    (h : parseGateRow row index = some g) :
    g.mcn_no = getCellValue row 0 ∧
    g.rev_flag = revFlagOf row ∧
    g.sts = getCellValue row 5 ∧
    gateNumberOf (getCellValue row 0) = some g.gateNumber ∧
    g.mod = jsCeilDiv20 g.gateNumber ∧
    g.jointStatuses =
      (if jsStrictEq (revFlagOf row) (JSVal.num 1) then
        JSVal.null :: ((jointRaw row).drop 1).reverse
      else jointRaw row) ∧
    g.skirtStatuses = skirtRaw row ∧
    g.rowIndex = index ∧
    g.isReverse = jsStrictEq (revFlagOf row) (JSVal.num 1) := by
  simp only [parseGateRow] at h
  cases hg : gateNumberOf (getCellValue row 0) with
  | none => rw [hg] at h; simp at h
  | some gn =>
    rw [hg] at h
    simp only [Option.some.injEq] at h
    subst h
    exact ⟨rfl, rfl, rfl, rfl, rfl, rfl, rfl, rfl, rfl⟩

lemma parseGateRow_rowIndex {row : Row} {index : Nat} {g : Gate}
    (h : parseGateRow row index = some g) : g.rowIndex = index :=
  (parseGateRow_fields h).2.2.2.2.2.2.2.1

/-! ### Concrete rows used as witnesses and counterexamples -/

/-- A minimal well-formed data row: only the gate id is present. -/
def rowG01 : Row := [JSVal.str "G01"]

/-- A reversed row (`rev_flag` cell holds the number 1) whose joint area has
a real code at offsets 17 and 19, the number 0 at offset 18, and the code
`"x"` at offsets 20–36. -/
def rowRev : Row :=
  [JSVal.str "G02", JSVal.null, JSVal.num 1] ++
  List.replicate 14 JSVal.null ++
  [JSVal.str "a17", JSVal.num 0, JSVal.str "c19"] ++
  List.replicate 17 (JSVal.str "x")

/-- A table with a header row and the single data row `rowG01`. -/
def tableG01 : List Row := [[JSVal.str "hdr"], rowG01]

/-- The record parsed from `rowG01`. -/
def gateG01 : Gate := (parseGateRow rowG01 0).getD default

/-- The record parsed from `rowRev`. -/
def gateRev : Gate := (parseGateRow rowRev 0).getD default

/-! ### Claims -/

/-- C1: for every data row whose `revFlag` is the number 1, the record's
`jointStatuses` is rebuilt as the 20-slot array `[null, …]` whose tail is
the reverse of the originally extracted positions 1..19, while
`skirtStatuses` stays un-reversed; for every other row `jointStatuses` is
the extracted array itself (per-slot default substitution only). -/
theorem reverse_rule (row : Row) (index : Nat) (g : Gate)
    (h : parseGateRow row index = some g) :
    (g.rev_flag = JSVal.num 1 →
      g.jointStatuses = JSVal.null :: ((jointRaw row).drop 1).reverse ∧
      g.skirtStatuses = skirtRaw row) ∧
    (g.rev_flag ≠ JSVal.num 1 →
      g.jointStatuses = jointRaw row ∧
      g.skirtStatuses = skirtRaw row) := by
  obtain ⟨-, hrev, -, -, -, hjoint, hskirt, -, -⟩ := parseGateRow_fields h
  rw [hrev]
  constructor
  · intro h1
    rw [hjoint, if_pos ((jsStrictEq_num_one _).mpr h1)]
    exact ⟨rfl, hskirt⟩
  · intro h1
    have hb : jsStrictEq (revFlagOf row) (JSVal.num 1) = false := by
      rcases Bool.eq_false_or_eq_true (jsStrictEq (revFlagOf row) (JSVal.num 1)) with hb | hb
      · exact absurd ((jsStrictEq_num_one _).mp hb) h1
      · exact hb
    rw [hjoint, hb]
    exact ⟨by simp, hskirt⟩

/-- Witness for C1 at the concrete reversed row `rowRev`. -/
theorem reverse_rule_witness :
    gateRev.jointStatuses = JSVal.null :: ((jointRaw rowRev).drop 1).reverse ∧
    gateRev.skirtStatuses = skirtRaw rowRev :=
  (reverse_rule rowRev 0 gateRev (by decide)).1 (by decide)

/-- C6: every produced record has exactly 20 joint-status slots and exactly
20 skirt-status slots, whether or not the reverse rule applied. -/
theorem status_lengths (row : Row) (index : Nat) (g : Gate)
    (h : parseGateRow row index = some g) :
    g.jointStatuses.length = 20 ∧ g.skirtStatuses.length = 20 := by
  obtain ⟨-, -, -, -, -, hjoint, hskirt, -, -⟩ := parseGateRow_fields h
  constructor
  · rw [hjoint]
    split
    · simp [jointRaw_length]
    · exact jointRaw_length row
  · rw [hskirt]; exact skirtRaw_length row

/-- Witness for C6 at the concrete row `rowG01`. -/
theorem status_lengths_witness :
    gateG01.jointStatuses.length = 20 ∧ gateG01.skirtStatuses.length = 20 :=
  status_lengths rowG01 0 gateG01 (by decide)

/-- C9: the reverse rule is type-sensitive — a rev-flag cell holding the
string `"1"` (rather than the number 1) does not trigger the reversal:
`isReverse` is false and `jointStatuses` is the plain extraction. -/
theorem string_flag_no_reverse (row : Row) (index : Nat) (g : Gate)
    (hcell : row.getD 2 JSVal.null = JSVal.str "1")
    (h : parseGateRow row index = some g) :
    g.isReverse = false ∧
    g.jointStatuses = jointRaw row ∧
    g.rev_flag = JSVal.str "1" := by
  obtain ⟨-, hrev, -, -, -, hjoint, -, -, hisrev⟩ := parseGateRow_fields h
  have hc2 : getCellValue row 2 = JSVal.str "1" := by
    simp only [getCellValue]
    rw [hcell]
    decide
  have hflag : revFlagOf row = JSVal.str "1" := by
    simp [revFlagOf, hc2, jsOr, JSVal.falsy]
  have hne : jsStrictEq (revFlagOf row) (JSVal.num 1) = false := by
    rw [hflag]; rfl
  refine ⟨by rw [hisrev, hne], ?_, by rw [hrev, hflag]⟩
  rw [hjoint, hne]
  simp

/-- Witness for C9: a concrete row whose rev-flag cell is the string "1". -/
theorem string_flag_no_reverse_witness :
    ((parseGateRow [JSVal.str "G03", JSVal.null, JSVal.str "1"] 0).getD
        default).isReverse = false ∧
    ((parseGateRow [JSVal.str "G03", JSVal.null, JSVal.str "1"] 0).getD
        default).jointStatuses =
      jointRaw [JSVal.str "G03", JSVal.null, JSVal.str "1"] ∧
    ((parseGateRow [JSVal.str "G03", JSVal.null, JSVal.str "1"] 0).getD
        default).rev_flag = JSVal.str "1" :=
  string_flag_no_reverse [JSVal.str "G03", JSVal.null, JSVal.str "1"] 0
    ((parseGateRow [JSVal.str "G03", JSVal.null, JSVal.str "1"] 0).getD default)
    (by decide) (by decide)

lemma jointRaw_getD (row : Row) (k : Nat) (hk : k < 20) :
    (jointRaw row).getD k JSVal.null =
      jsOr (getCellValue row (17 + k)) (JSVal.str "B") := by
  rw [jointRaw, List.getD_eq_getElem?_getD, List.getElem?_map]
  rw [List.getElem?_eq_getElem (by simpa using hk)]
  simp [List.getElem_range'_1]

lemma skirtRaw_getD (row : Row) (k : Nat) (hk : k < 20) :
    (skirtRaw row).getD k JSVal.null =
      jsOr (getCellValue row (38 + k)) (JSVal.str "B") := by
  rw [skirtRaw, List.getD_eq_getElem?_getD, List.getElem?_map]
  rw [List.getElem?_eq_getElem (by simpa using hk)]
  simp [List.getElem_range'_1]

lemma getCellValue_nullish {row : Row} {j : Nat}
    (hc : row.getD j JSVal.null = JSVal.null ∨
          row.getD j JSVal.null = JSVal.str "") :
    getCellValue row j = JSVal.null := by
  simp only [getCellValue]
  rcases hc with hc | hc
  · rw [hc]
  · rw [hc]
    rfl

lemma getCellValue_zero {row : Row} {j : Nat}
    (hc : row.getD j JSVal.null = JSVal.num 0) :
    getCellValue row j = JSVal.num 0 := by
  simp only [getCellValue]
  rw [hc]

/-- C2 counterexample: the record built from `rowRev` (whose rev-flag cell
is the number 1) has `null` among its `jointStatuses`, so the collections do
contain null. -/
theorem joint_null_counterexample :
    (parseGateRow rowRev 0).map
        (fun g => decide (JSVal.null ∈ g.jointStatuses)) = some true := by
  decide

/-- C2 amended: `skirtStatuses` never contains null, and `jointStatuses`
never contains null except that the reverse rule (`revFlag === 1`) puts
`null` in slot 0; a source cell that is null/undefined or the empty string
reads as `"B"` in the status extractions and as `null` for scalar fields. -/
theorem no_null_statuses_amended (row : Row) (index : Nat) (g : Gate)
    (h : parseGateRow row index = some g) :
    JSVal.null ∉ g.skirtStatuses ∧
    (g.rev_flag ≠ JSVal.num 1 → JSVal.null ∉ g.jointStatuses) ∧
    (g.rev_flag = JSVal.num 1 →
      g.jointStatuses.head? = some JSVal.null ∧
      JSVal.null ∉ g.jointStatuses.drop 1) ∧
    (∀ k, k < 20 →
      (row.getD (17 + k) JSVal.null = JSVal.null ∨
       row.getD (17 + k) JSVal.null = JSVal.str "") →
      (jointRaw row).getD k JSVal.null = JSVal.str "B") ∧
    (∀ k, k < 20 →
      (row.getD (38 + k) JSVal.null = JSVal.null ∨
       row.getD (38 + k) JSVal.null = JSVal.str "") →
      g.skirtStatuses.getD k JSVal.null = JSVal.str "B") ∧
    (∀ j, (row.getD j JSVal.null = JSVal.null ∨
           row.getD j JSVal.null = JSVal.str "") →
      getCellValue row j = JSVal.null) := by
  obtain ⟨-, hrev, -, -, -, hjoint, hskirt, -, -⟩ := parseGateRow_fields h
  rw [hrev, hskirt, hjoint]
  refine ⟨?_, ?_, ?_, ?_, ?_, ?_⟩
  · intro hmem
    exact (mem_skirtRaw_ne hmem).1 rfl
  · intro h1 hmem
    rw [if_neg] at hmem
    · exact (mem_jointRaw_ne hmem).1 rfl
    · intro hb
      exact h1 ((jsStrictEq_num_one _).mp hb)
  · intro h1
    rw [if_pos ((jsStrictEq_num_one _).mpr h1)]
    refine ⟨rfl, ?_⟩
    intro hmem
    simp only [List.drop_succ_cons, List.drop_zero] at hmem
    exact (mem_jointRaw_ne (List.mem_of_mem_drop (List.mem_reverse.mp hmem))).1 rfl
  · intro k hk hc
    rw [jointRaw_getD row k hk, getCellValue_nullish hc]
    rfl
  · intro k hk hc
    rw [skirtRaw_getD row k hk, getCellValue_nullish hc]
    rfl
  · intro j hc
    exact getCellValue_nullish hc

/-- Witness for the amended C2 at the concrete reversed row `rowRev`. -/
theorem no_null_statuses_witness :
    JSVal.null ∉ gateRev.skirtStatuses ∧
    gateRev.jointStatuses.head? = some JSVal.null ∧
    gateRev.skirtStatuses.getD 3 JSVal.null = JSVal.str "B" :=
  ⟨(no_null_statuses_amended rowRev 0 gateRev (by decide)).1,
   ((no_null_statuses_amended rowRev 0 gateRev (by decide)).2.2.1 (by decide)).1,
   (no_null_statuses_amended rowRev 0 gateRev (by decide)).2.2.2.2.1 3 (by decide)
     (Or.inl (by decide))⟩

/-- C10 counterexample: in `rowRev` the cell at offset 18 (joint slot 1)
holds the number 0, yet the built record's joint slot 1 holds `"x"` (the
reverse rule moved the substituted `"B"` elsewhere), so the per-slot claim
fails. -/
theorem zero_cell_counterexample :
    rowRev.getD 18 JSVal.null = JSVal.num 0 ∧
    (parseGateRow rowRev 0).map (fun g => g.jointStatuses.getD 1 JSVal.null) =
      some (JSVal.str "x") ∧
    JSVal.str "x" ≠ JSVal.str "B" := by
  decide

/-- C10 amended: a source cell holding the number 0 (like every falsy cell)
becomes `"B"` in the raw status extraction — position-for-position in
`skirtStatuses` and in the pre-reversal `jointStatuses` — and consequently
no slot of either collection in a built record ever holds the number 0. -/
theorem zero_cell_amended (row : Row) (index : Nat) (g : Gate)
    (h : parseGateRow row index = some g) :
    JSVal.num 0 ∉ g.jointStatuses ∧
    JSVal.num 0 ∉ g.skirtStatuses ∧
    (∀ k, k < 20 → row.getD (17 + k) JSVal.null = JSVal.num 0 →
      (jointRaw row).getD k JSVal.null = JSVal.str "B") ∧
    (∀ k, k < 20 → row.getD (38 + k) JSVal.null = JSVal.num 0 →
      g.skirtStatuses.getD k JSVal.null = JSVal.str "B") := by
  obtain ⟨-, -, -, -, -, hjoint, hskirt, -, -⟩ := parseGateRow_fields h
  rw [hskirt, hjoint]
  refine ⟨?_, ?_, ?_, ?_⟩
  · split
    · intro hmem
      rcases List.mem_cons.mp hmem with hx | hx
      · cases hx
      · exact
          (mem_jointRaw_ne (List.mem_of_mem_drop (List.mem_reverse.mp hx))).2 rfl
    · intro hmem
      exact (mem_jointRaw_ne hmem).2 rfl
  · intro hmem
    exact (mem_skirtRaw_ne hmem).2 rfl
  · intro k hk hc
    rw [jointRaw_getD row k hk, getCellValue_zero hc]
    rfl
  · intro k hk hc
    rw [skirtRaw_getD row k hk, getCellValue_zero hc]
    rfl

/-- Witness for the amended C10 at the concrete reversed row `rowRev`. -/
theorem zero_cell_witness :
    JSVal.num 0 ∉ gateRev.jointStatuses ∧
    (jointRaw rowRev).getD 1 JSVal.null = JSVal.str "B" :=
  ⟨(zero_cell_amended rowRev 0 gateRev (by decide)).1,
   (zero_cell_amended rowRev 0 gateRev (by decide)).2.2.1 1 (by decide)
     (by decide)⟩

/-- C3 counterexample: a gate id with a non-numeric suffix (`"GXX"`) yields
`groupIndex = NaN`, not 0, and a negative suffix (`"G-25"`) yields the
negative value −1, so `groupIndex` is neither "0 on unparseable suffix" nor
always non-negative. -/
theorem groupIndex_counterexample :
    (parseGateRow [JSVal.str "GXX"] 0).map Gate.mod = some JSVal.nan ∧
    JSVal.nan ≠ JSVal.num 0 ∧
    (parseGateRow [JSVal.str "G-25"] 0).map Gate.mod = some (JSVal.num (-1)) := by
  decide

/-- C3 amended: `groupIndex` is `Math.ceil(gateNumber / 20)` where
`gateNumber` is `parseInt` of the gate id with its first `G` removed (`'0'`
when the id is missing or the suffix empty): `G01`/`G20` give 1, `G21` gives
2, `G60` gives 3 and a missing id gives 0, but a non-numeric non-empty
suffix gives `NaN` and a negative suffix can give a negative value. -/
theorem groupIndex_amended (row : Row) (index : Nat) (g : Gate)
    (h : parseGateRow row index = some g) :
    gateNumberOf g.mcn_no = some g.gateNumber ∧
    g.mod = jsCeilDiv20 g.gateNumber ∧
    (∀ n : Int, g.gateNumber = JSVal.num n →
      g.mod = JSVal.num (Int.fdiv (n + 19) 20)) ∧
    (g.gateNumber = JSVal.nan → g.mod = JSVal.nan) ∧
    (g.mcn_no = JSVal.null → g.mod = JSVal.num 0) ∧
    (parseGateRow [JSVal.str "G01"] 0).map Gate.mod = some (JSVal.num 1) ∧
    (parseGateRow [JSVal.str "G20"] 0).map Gate.mod = some (JSVal.num 1) ∧
    (parseGateRow [JSVal.str "G21"] 0).map Gate.mod = some (JSVal.num 2) ∧
    (parseGateRow [JSVal.str "G60"] 0).map Gate.mod = some (JSVal.num 3) ∧
    (parseGateRow ([] : Row) 0).map Gate.mod = some (JSVal.num 0) := by
  obtain ⟨hmcn, -, -, hgn, hmod, -, -, -, -⟩ := parseGateRow_fields h
  refine ⟨by rw [hmcn]; exact hgn, hmod, ?_, ?_, ?_,
    by decide, by decide, by decide, by decide, by decide⟩
  · intro n hn
    rw [hmod, hn]
    rfl
  · intro hn
    rw [hmod, hn]
    rfl
  · intro hnull
    rw [hmcn] at hnull
    rw [hnull] at hgn
    have h0 : gateNumberOf JSVal.null = some (JSVal.num 0) := by decide
    rw [h0] at hgn
    rw [hmod, ← Option.some.inj hgn]
    decide

/-- Witness for the amended C3 at the concrete row `rowG01`. -/
theorem groupIndex_witness : gateG01.mod = JSVal.num (Int.fdiv (1 + 19) 20) :=
  (groupIndex_amended rowG01 0 gateG01 (by decide)).2.2.1 1 (by decide)

/-- C4 counterexample: building from a table with only a header row does
not fail — it succeeds with an empty record set and the loaded flag set. -/
theorem header_only_counterexample :
    loadExcel [[JSVal.str "hdr"]] = .ok { gates := [], isLoaded := true } := rfl

/-- C4 amended: a table with zero rows fails with `DataEmpty`, while a
table containing only a header row (zero data rows) succeeds and produces
zero records (the row-count mismatch is only a logged warning). -/
theorem dataEmpty_amended :
    validateData ([] : List Row) = .error .dataEmpty ∧
    loadExcel ([] : List Row) = .error .dataEmpty ∧
    ∀ hdr : Row, loadExcel [hdr] = .ok { gates := [], isLoaded := true } :=
  ⟨rfl, rfl, fun _ => rfl⟩

/-- C8 counterexample: supplying the group value 0 (a falsy number) returns
the full record set — here a set whose only record has `groupIndex` 1 — and
not the records whose `groupIndex` equals 0. -/
theorem filter_zero_counterexample :
    filterByMod (parseGates tableG01) (JSVal.num 0) = parseGates tableG01 ∧
    (parseGates tableG01).map Gate.mod = [JSVal.num 1] := by
  decide

/-- C8 amended: for every truthy group value (a number other than 0 and
`NaN`), `filterByMod` returns exactly the records whose `groupIndex` is
strictly equal to it; when the value is absent or falsy (`undefined`, 0,
`NaN`), it returns the full record set unchanged. -/
theorem filterByMod_amended (gates : List Gate) (mod : JSVal) :
    (mod.falsy = true → filterByMod gates mod = gates) ∧
    (mod.falsy = false →
      ∀ g, g ∈ filterByMod gates mod ↔
        g ∈ gates ∧ jsStrictEq g.mod mod = true) := by
  constructor
  · intro hf
    simp [filterByMod, hf]
  · intro hf g
    simp [filterByMod, hf, List.mem_filter]

/-- Witness for the amended C8: the absent value returns the full set, and
membership under the value 1 is strict-equality filtering. -/
theorem filterByMod_witness :
    filterByMod (parseGates tableG01) JSVal.null = parseGates tableG01 ∧
    (gateG01 ∈ filterByMod (parseGates tableG01) (JSVal.num 1) ↔
      gateG01 ∈ parseGates tableG01 ∧
        jsStrictEq gateG01.mod (JSVal.num 1) = true) :=
  ⟨(filterByMod_amended (parseGates tableG01) JSVal.null).1 (by decide),
   (filterByMod_amended (parseGates tableG01) (JSVal.num 1)).2 (by decide)
     gateG01⟩

lemma parseGatesAux_length (rows : List Row) :
    ∀ i, (parseGatesAux i rows).length ≤ rows.length := by
  induction rows with
  | nil =>
    intro i
    simp [parseGatesAux]
  | cons row rest ih =>
    intro i
    cases h : parseGateRow row i with
    | none =>
      simp only [parseGatesAux, h, List.length_cons]
      exact (ih (i + 1)).trans (Nat.le_succ _)
    | some g =>
      simp only [parseGatesAux, h, List.length_cons]
      exact Nat.succ_le_succ (ih (i + 1))

lemma parseGatesAux_mem (rows : List Row) :
    ∀ i g, g ∈ parseGatesAux i rows →
      ∃ j, ∃ hj : j < rows.length,
        parseGateRow (rows.get ⟨j, hj⟩) (i + j) = some g ∧
        g.rowIndex = i + j := by
  induction rows with
  | nil =>
    intro i g hg
    simp [parseGatesAux] at hg
  | cons row rest ih =>
    intro i g hg
    cases h : parseGateRow row i with
    | none =>
      simp only [parseGatesAux, h] at hg
      obtain ⟨j, hj, hparse, hidx⟩ := ih (i + 1) g hg
      have e : (i + 1) + j = i + (j + 1) := by omega
      rw [e] at hparse hidx
      exact ⟨j + 1, by simpa using Nat.succ_lt_succ hj, hparse, hidx⟩
    | some g0 =>
      simp only [parseGatesAux, h] at hg
      rcases List.mem_cons.mp hg with hx | hx
      · subst hx
        refine ⟨0, by simp, ?_, ?_⟩
        · simpa using h
        · simpa using parseGateRow_rowIndex h
      · obtain ⟨j, hj, hparse, hidx⟩ := ih (i + 1) g hx
        have e : (i + 1) + j = i + (j + 1) := by omega
        rw [e] at hparse hidx
        exact ⟨j + 1, by simpa using Nat.succ_lt_succ hj, hparse, hidx⟩

lemma parseGatesAux_mem_of (rows : List Row) :
    ∀ i j (hj : j < rows.length) g,
      parseGateRow (rows.get ⟨j, hj⟩) (i + j) = some g →
      g ∈ parseGatesAux i rows := by
  induction rows with
  | nil =>
    intro i j hj
    simp at hj
  | cons row rest ih =>
    intro i j hj g hparse
    cases j with
    | zero =>
      have hrw : (row :: rest).get ⟨0, hj⟩ = row := rfl
      rw [hrw, Nat.add_zero] at hparse
      unfold parseGatesAux
      rw [hparse]
      exact List.mem_cons_self _ _
    | succ j' =>
      have hj' : j' < rest.length := by simpa using hj
      have hparse' :
          parseGateRow (rest.get ⟨j', hj'⟩) ((i + 1) + j') = some g := by
        have e : i + (j' + 1) = (i + 1) + j' := by omega
        simpa [e] using hparse
      have hmem := ih (i + 1) j' hj' g hparse'
      cases h : parseGateRow row i with
      | none => simpa [parseGatesAux, h] using hmem
      | some g0 =>
        simp only [parseGatesAux, h]
        exact List.mem_cons_of_mem _ hmem

lemma parseGatesAux_rowIndex_ge (rows : List Row) (i : Nat) (g : Gate)
    (hg : g ∈ parseGatesAux i rows) : i ≤ g.rowIndex := by
  obtain ⟨j, hj, -, hidx⟩ := parseGatesAux_mem rows i g hg
  omega

lemma parseGatesAux_pairwise (rows : List Row) :
    ∀ i, ((parseGatesAux i rows).map Gate.rowIndex).Pairwise (· < ·) := by
  induction rows with
  | nil =>
    intro i
    simp [parseGatesAux]
  | cons row rest ih =>
    intro i
    cases h : parseGateRow row i with
    | none =>
      simp only [parseGatesAux, h]
      exact ih (i + 1)
    | some g =>
      simp only [parseGatesAux, h, List.map_cons]
      refine List.Pairwise.cons ?_ (ih (i + 1))
      intro b hb
      obtain ⟨g', hg', rfl⟩ := List.mem_map.mp hb
      have h1 := parseGatesAux_rowIndex_ge rest (i + 1) g' hg'
      have h2 := parseGateRow_rowIndex h
      omega

/-- A table whose data rows are a good row, a throwing row (numeric gate id)
and another good row. -/
def tableMix : List Row :=
  [[JSVal.str "hdr"], rowG01, [JSVal.num 7], [JSVal.str "G21"]]

/-- C5: a data row whose record construction throws is dropped while the
build continues: the output has at most one record per data row, its
records appear in strictly increasing source-row order, every row that
parses successfully contributes its record, and a dropped row contributes
none. -/
theorem row_drop_order (table : List Row) :
    (parseGates table).length ≤ (table.drop 1).length ∧
    ((parseGates table).map Gate.rowIndex).Pairwise (· < ·) ∧
    (∀ i row, (table.drop 1)[i]? = some row →
      (∀ g, parseGateRow row i = some g → g ∈ parseGates table) ∧
      (parseGateRow row i = none →
        ∀ g ∈ parseGates table, g.rowIndex ≠ i)) := by
  refine ⟨parseGatesAux_length _ 0, parseGatesAux_pairwise _ 0, ?_⟩
  intro i row hrow
  obtain ⟨hlt, hget⟩ := List.getElem?_eq_some.mp hrow
  constructor
  · intro g hparse
    refine parseGatesAux_mem_of (table.drop 1) 0 i hlt g ?_
    rw [List.get_eq_getElem, hget]
    simpa using hparse
  · intro hnone g hg hidx
    obtain ⟨j, hj, hparse, hidx'⟩ := parseGatesAux_mem (table.drop 1) 0 g hg
    have hji : j = i := by omega
    subst hji
    rw [List.get_eq_getElem, hget] at hparse
    rw [Nat.zero_add, hnone] at hparse
    cases hparse

/-- Witness for C5 on `tableMix`: the first good row's record is in the
output, and no output record carries the dropped row's index 1. -/
theorem row_drop_order_witness :
    gateG01 ∈ parseGates tableMix ∧ gateG01.rowIndex ≠ 1 :=
  ⟨((row_drop_order tableMix).2.2 0 rowG01 (by decide)).1 gateG01 (by decide),
   ((row_drop_order tableMix).2.2 1 [JSVal.num 7] (by decide)).2 (by decide)
     gateG01
     (((row_drop_order tableMix).2.2 0 rowG01 (by decide)).1 gateG01
       (by decide))⟩

lemma statusCountOf_eq_count (gates : List Gate) (k : String) :
    statusCountOf gates k = (gates.map statusKeyOf).count k := by
  suffices h : ∀ m : String → Nat,
      (gates.foldl (fun m g k => if k = statusKeyOf g then m k + 1 else m k) m) k
        = m k + (gates.map statusKeyOf).count k by
    simpa [statusCountOf] using h (fun _ => 0)
  induction gates with
  | nil =>
    intro m
    simp
  | cons g rest ih =>
    intro m
    simp only [List.foldl_cons, List.map_cons, List.count_cons]
    rw [ih]
    by_cases hk : k = statusKeyOf g
    · simp only [if_pos hk, hk, beq_self_eq_true, if_true]
      omega
    · have hne : (statusKeyOf g == k) = false := by
        simp only [beq_eq_false_iff_ne, ne_eq]
        exact fun e => hk e.symm
      simp [if_neg hk, hne]

lemma statusCount_sum (gates : List Gate) :
    ((summaryKeys gates).map (statusCountOf gates)).sum = gates.length := by
  have hfun : statusCountOf gates = fun x => (gates.map statusKeyOf).count x :=
    funext (statusCountOf_eq_count gates)
  rw [summaryKeys, hfun, List.sum_map_count_dedup_eq_length, List.length_map]

/-- C7: `getSummary` before any successful build fails with the `NotLoaded`
condition; after a successful build it reports a total equal to the number
of produced records, and the per-status counts over the keys that occur
(missing statuses counted under `"Unknown"`) sum to that total. -/
theorem summary_spec :
    getSummary initState = .error .notLoaded ∧
    ∀ table st, loadExcel table = .ok st →
      (getSummary st).map Summary.totalGates = .ok st.gates.length ∧
      st.gates.length = (parseGates table).length ∧
      (getSummary st).map
          (fun s => ((summaryKeys st.gates).map s.statusCount).sum)
        = .ok st.gates.length := by
  refine ⟨rfl, ?_⟩
  intro table st hload
  have hst : st = { gates := parseGates table, isLoaded := true } := by
    by_cases hlen : table.length = 0
    · simp [loadExcel, validateData, hlen] at hload
    · simp only [loadExcel, validateData, if_neg hlen] at hload
      exact (Except.ok.inj hload).symm
  subst hst
  refine ⟨rfl, rfl, ?_⟩
  simp only [getSummary, if_true, Except.map]
  rw [statusCount_sum]

/-- Witness for C7 after loading the concrete table `tableG01`. -/
theorem summary_spec_witness :
    (getSummary { gates := parseGates tableG01, isLoaded := true }).map
        (fun s => ((summaryKeys (parseGates tableG01)).map s.statusCount).sum)
      = .ok (parseGates tableG01).length :=
  ((summary_spec.2 tableG01 { gates := parseGates tableG01, isLoaded := true }
    rfl).2.2).trans (by rfl)

end ExcelParserModel
